import Mathlib

/-!
bookstore_utils-go: the `logger` package

A shallow embedding of `src/logger/logger.go` and the properties of its
logging facade.

Modelling conventions

* The zap logger held by the package-level variable `log` is threaded through
  explicitly.  It carries the threshold and output path that `init` installs
  from the environment, and the chronological list of what it did on its sink:
  `Event.write` for a record it emitted, `Event.sync` for a flush.  A record
  below the threshold is not emitted.  The encoder is not modelled.
* A Go panic (index out of range) is `none`; every function of the facade that
  can reach an indexing expression returns `Option`.
* `interface{}` values are the inductive `Iface`.
* Library functions of Go (`os.Getenv`, `strings.TrimSpace`, `strings.ToLower`,
  `fmt.Sprintf`) and of zap (`zap.Any`, `zap.NamedError`) are small models of
  their documented behaviour; the Unicode lower-case table for non-ASCII runes
  and `fmt.Sprintf` are parameters.
-/

namespace Bookstore

/-! ## Values -/

/-- Go `error`: `none` is the nil error, `some m` an error whose text is `m`. -/
abbrev GoError := Option String

/-- Stand-in for what a `*http.Request` points to. -/
structure HttpRequest where
  method : String
  url : String

/-- Stand-in for what a `*http.Response` points to. -/
structure HttpResponse where
  status : Nat

/-- Dynamic values that travel as `interface{}`.  `errorField key m` is the
`zap.Field` of error type that `zap.NamedError key e` builds for a non-nil
error `e` with text `m`; `skipField` is the field `zap.Skip()` builds. -/
inductive Iface where
  | nil
  | bool (b : Bool)
  | int (n : Int)
  | str (s : String)
  | err (msg : String)
  | request (p : Option HttpRequest)
  | response (p : Option HttpResponse)
  | time (t : Int)
  | duration (d : Int)
  | slice (xs : List Iface)
  | errorField (key : String) (msg : String)
  | skipField

/-- Converting an `error` to `interface{}`: the nil error is the nil interface. -/
def GoError.box : GoError → Iface
  | none => Iface.nil
  | some m => Iface.err m

/-! ## The part of zap the facade calls -/

/-- The `zapcore.Level` constants used by the package. -/
inductive Level where
  | DebugLevel
  | InfoLevel
  | ErrorLevel
  deriving DecidableEq

/-- The integer behind each `zapcore.Level` constant. -/
def Level.toInt : Level → Int
  | Level.DebugLevel => -1
  | Level.InfoLevel => 0
  | Level.ErrorLevel => 2

/-- Method `zapcore.Level.Enabled`: with threshold `l`, a record of level `lvl`
is let through when `lvl >= l`. -/
def Level.Enabled (l lvl : Level) : Bool := decide (l.toInt ≤ lvl.toInt)

/-- A `zap.Field`: a key and the value logged under it. -/
structure Field where
  key : String
  val : Iface

/-- The zero `zap.Field`, what `make([]zap.Field, n)` fills a slice with. -/
def Field.zero : Field := ⟨"", Iface.nil⟩

/-- Model of `zap.Any(key, value)`: a field with that key carrying that value. -/
def zap_Any (key : String) (value : Iface) : Field := ⟨key, value⟩

/-- Model of `zap.NamedError(key, err)`, already converted to `interface{}`:
`zap.Skip()` for the nil error, otherwise an error-typed field named `key`. -/
def zap_NamedError (key : String) (err : GoError) : Iface :=
  match err with
  | none => Iface.skipField
  | some m => Iface.errorField key m

/-- A log record: severity, message and ordered fields. -/
structure Entry where
  level : Level
  msg : String
  fields : List Field

/-- One thing the zap logger did on its sink: it emitted a record, or flushed. -/
inductive Event where
  | write (e : Entry)
  | sync

/-- The zap logger: the threshold and output paths it was built with, what it has
done on its sink so far (oldest first), and the error its `Sync` reports (`none`
when flushing works). -/
structure ZapLogger where
  level : Level
  output : List String
  events : List Event
  syncErr : GoError

/-- The level check every logging method of zap starts with: the record is
emitted when the threshold lets its level through, and dropped otherwise. -/
def ZapLogger.emit (z : ZapLogger) (e : Entry) : ZapLogger :=
  if z.level.Enabled e.level then
    ⟨z.level, z.output, z.events ++ [Event.write e], z.syncErr⟩
  else
    z

/-- Method `(*zap.Logger).Info(msg, fields...)`. -/
def ZapLogger.Info (z : ZapLogger) (msg : String) (fields : List Field) : ZapLogger :=
  z.emit ⟨Level.InfoLevel, msg, fields⟩

/-- Method `(*zap.Logger).Error(msg, fields...)`. -/
def ZapLogger.Error (z : ZapLogger) (msg : String) (fields : List Field) : ZapLogger :=
  z.emit ⟨Level.ErrorLevel, msg, fields⟩

/-- Method `(*zap.Logger).Sync()`: flushes and returns the flush error. -/
def ZapLogger.Sync (z : ZapLogger) : ZapLogger × GoError :=
  (⟨z.level, z.output, z.events ++ [Event.sync], z.syncErr⟩, z.syncErr)

/-- The part of `zap.Config` that `init` fills in. -/
structure Config where
  OutputPaths : List String
  Level : Level
  Encoding : String
  LevelKey : String
  TimeKey : String
  MessageKey : String

/-- Method `zap.Config.Build`: a fresh logger with the configured threshold and
output, or the error `buildErr` when the output cannot be opened.  `syncErr` is
what flushing that output will report. -/
def Config.Build (cfg : Config) (buildErr syncErr : GoError) : ZapLogger × GoError :=
  match buildErr with
  | some e => (⟨Level.InfoLevel, [], [], none⟩, some e)
  | none => (⟨cfg.Level, cfg.OutputPaths, [], syncErr⟩, none)

/-! ## The facade -/

/-- The Go struct `logger`, wrapping the zap logger. -/
structure logger where
  log : ZapLogger

/-- One pass of the loop body of `mapFields` at index `i`:
`fields[i] = zap.Any(tagNames[i], tags[i])`.  Either index expression panics
when out of range. -/
def mapFields.body (tagNames : List String) (tags : List Iface)
    (fields : List Field) (i : Nat) : Option (List Field) := do
  let name ← tagNames[i]?
  let tag ← tags[i]?
  if i < fields.length then pure (fields.set i (zap_Any name tag)) else none

/-- Go `mapFields`: allocate `min(len(tagNames), len(tags))` zero fields, then
overwrite each index `i` of the slice.  The Go code computes the minimum through
`float64`, which is exact for slice lengths (they stay far below `2^53`). -/
def mapFields (tagNames : List String) (tags : List Iface) : Option (List Field) :=
  let fields := List.replicate (min tagNames.length tags.length) Field.zero
  (List.range fields.length).foldlM (mapFields.body tagNames tags) fields

/-- Go `Info(msg, tagNames, tags...)` acting on the package-level `log`. -/
def Info (log : logger) (msg : String) (tagNames : List String) (tags : List Iface) :
    Option logger := do
  let fields ← mapFields tagNames tags
  let z := log.log.Info msg fields
  let r := z.Sync
  pure ⟨r.1⟩

/-- Go `Error(msg, err, tagNames, tags...)` acting on the package-level `log`. -/
def Error (log : logger) (msg : String) (err : GoError) (tagNames : List String)
    (tags : List Iface) : Option logger := do
  let tags := tags ++ [zap_NamedError "error" err]
  let fields ← mapFields tagNames tags
  let z := log.log.Error msg fields
  let r := z.Sync
  pure ⟨r.1⟩

/-- Go method `logger.Printf`; the receiver is not used, the call goes to the
package-level `log`.  `sprintf` stands for `fmt.Sprintf`. -/
def logger.Printf (_l : logger) (sprintf : String → List Iface → String) (log : logger)
    (format : String) (v : List Iface) : Option logger :=
  if v.length = 0 then
    Info log format [] []
  else
    Info log (sprintf format v) [] []

/-- Go method `logger.Print`: the variadic slice `v` is passed to `fmt.Sprintf`
as the single operand of the verb. -/
def logger.Print (_l : logger) (sprintf : String → List Iface → String) (log : logger)
    (v : List Iface) : Option logger :=
  Info log (sprintf "%v" [Iface.slice v]) [] []

/-- Go method `logger.LogRoundTrip`: logs the five arguments, returns nil.
The result pairs the new state of `log` with the returned error. -/
def logger.LogRoundTrip (_l : logger) (log : logger) (request : Option HttpRequest)
    (response : Option HttpResponse) (err : GoError) (time : Int) (duration : Int) :
    Option (logger × GoError) := do
  let log ← Info log "elastic" ["request", "response", "error", "time", "duration"]
    [Iface.request request, Iface.response response, err.box, Iface.time time,
      Iface.duration duration]
  pure (log, none)

/-- Go method `logger.RequestBodyEnabled`. -/
def logger.RequestBodyEnabled (_l : logger) : Bool := true

/-- Go method `logger.ResponseBodyEnabled`. -/
def logger.ResponseBodyEnabled (_l : logger) : Bool := true

/-- Go `GetLogger`: the package-level `log`. -/
def GetLogger (log : logger) : logger := log

/-! ## Configuration from the environment -/

/-- Go constant `envLogLevel`. -/
def envLogLevel : String := "LOG_LEVEL"

/-- Go constant `envLogOutput`. -/
def envLogOutput : String := "LOG_OUTPUT"

/-- The process environment: which variables are set, and to what. -/
abbrev Env := String → Option String

/-- Model of `os.Getenv`: the value of the variable, empty when it is unset. -/
def Getenv (env : Env) (key : String) : String := (env key).getD ""

/-- Model of Go `unicode.IsSpace`: the Latin-1 white space characters, and
beyond Latin-1 the code points with the Unicode White_Space property. -/
def isSpace (c : Char) : Bool :=
  let r := c.toNat
  if r ≤ 0xFF then
    r = 0x09 || r = 0x0A || r = 0x0B || r = 0x0C || r = 0x0D || r = 0x20 || r = 0x85 ||
      r = 0xA0
  else
    r = 0x1680 || (0x2000 ≤ r && r ≤ 0x200A) || r = 0x2028 || r = 0x2029 || r = 0x202F ||
      r = 0x205F || r = 0x3000

/-- Model of `strings.TrimSpace`: drop the white space at both ends. -/
def TrimSpace (s : String) : String :=
  ⟨(s.data.dropWhile isSpace).rdropWhile isSpace⟩

/-- Model of Go `unicode.ToLower`: ASCII capitals move by 32, other ASCII runes
stay, and every other rune is looked up in the Unicode case table `tbl`. -/
def unicodeToLower (tbl : Char → Char) (c : Char) : Char :=
  if c.toNat ≤ 0x7F then
    if 65 ≤ c.toNat ∧ c.toNat ≤ 90 then Char.ofNat (c.toNat + 32) else c
  else
    tbl c

/-- Model of `strings.ToLower`: every rune mapped by `unicode.ToLower`. -/
def ToLower (tbl : Char → Char) (s : String) : String :=
  ⟨s.data.map (unicodeToLower tbl)⟩

/-- Go `getLevel`: the switch on the trimmed, lower-cased `LOG_LEVEL`. -/
def getLevel (tbl : Char → Char) (env : Env) : Level :=
  let s := ToLower tbl (TrimSpace (Getenv env envLogLevel))
  if s = "debug" then Level.DebugLevel
  else if s = "info" then Level.InfoLevel
  else if s = "error" then Level.ErrorLevel
  else Level.InfoLevel

/-- Go `getOutput`: the trimmed `LOG_OUTPUT`, or `stdout` when that is empty. -/
def getOutput (env : Env) : String :=
  let output := TrimSpace (Getenv env envLogOutput)
  if output = "" then "stdout" else output

/-- An environment in which only the variable `key` is set, to `value`. -/
def Env.single (key value : String) : Env :=
  fun k => if k = key then some value else none

/-- The environment with no variable set. -/
def Env.empty : Env := fun _ => none

/-- Go `init`: build the package-level `log` from the environment, with the
threshold `getLevel` and the output `getOutput`; a build error panics. -/
def init (tbl : Char → Char) (env : Env) (buildErr syncErr : GoError) : Option logger :=
  let logConfig : Config :=
    ⟨[getOutput env], getLevel tbl env, "json", "level", "time", "msg"⟩
  let r := logConfig.Build buildErr syncErr
  if r.2.isSome then none else some ⟨r.1⟩

/-! ## Vocabulary for the statements -/

/-- The logger `log` after its zap logger did `evs` on the sink, nothing else
changed. -/
def logger.after (log : logger) (evs : List Event) : logger :=
  ⟨⟨log.log.level, log.log.output, log.log.events ++ evs, log.log.syncErr⟩⟩

/-- A fresh logger on `stdout` with threshold `level` whose flush works: what
`init` builds when `LOG_OUTPUT` is unset. -/
def loggerAt (level : Level) : logger := ⟨⟨level, ["stdout"], [], none⟩⟩

/-! ## Lemmas on the field-pairing loop -/

/-- Running the loop of `mapFields` over the first `j` indices of a slice of the
allocated length never panics: it fills those indices with the paired fields and
leaves the others alone. -/
theorem mapFields_loop (tagNames : List String) (tags : List Iface) (j : Nat) :
    j ≤ min tagNames.length tags.length →
    ∀ fields : List Field, fields.length = min tagNames.length tags.length →
    ∃ out, (List.range j).foldlM (mapFields.body tagNames tags) fields = some out ∧
      out.length = min tagNames.length tags.length ∧
      (∀ i, i < j → out[i]? = (List.zipWith zap_Any tagNames tags)[i]?) ∧
      (∀ i, j ≤ i → out[i]? = fields[i]?) := by
  induction j with
  | zero =>
    intro _ fields hlen
    exact ⟨fields, by simp, hlen, by simp, by simp⟩
  | succ j ih =>
    intro hj fields hlen
    obtain ⟨mid, hmid, hmidlen, hlo, hhi⟩ := ih (Nat.le_of_succ_le hj) fields hlen
    have hjn : j < tagNames.length := by omega
    have hjt : j < tags.length := by omega
    have hjm : j < mid.length := by omega
    refine ⟨mid.set j (zap_Any tagNames[j] tags[j]), ?_, ?_, ?_, ?_⟩
    · rw [List.range_succ, List.foldlM_append, hmid]
      simp [mapFields.body, List.getElem?_eq_getElem hjn, List.getElem?_eq_getElem hjt, hjm]
    · simp [hmidlen]
    · intro i hi
      by_cases hij : i = j
      · subst hij
        simp [List.getElem?_set, hjm, List.getElem?_zipWith, List.getElem?_eq_getElem hjn,
          List.getElem?_eq_getElem hjt]
      · rw [List.getElem?_set_ne (Ne.symm hij)]
        exact hlo i (by omega)
    · intro i hi
      rw [List.getElem?_set_ne (by omega)]
      exact hhi i (by omega)

/-- The loop of `mapFields` never panics, and the slice it returns is the
position-wise pairing of names and values, cut at the shorter list. -/
theorem mapFields_eq (tagNames : List String) (tags : List Iface) :
    mapFields tagNames tags = some (List.zipWith zap_Any tagNames tags) := by
  obtain ⟨out, hout, hlen, hlo, _⟩ :=
    mapFields_loop tagNames tags (min tagNames.length tags.length) (Nat.le_refl _)
      (List.replicate (min tagNames.length tags.length) Field.zero) (by simp)
  have hz : (List.zipWith zap_Any tagNames tags).length = min tagNames.length tags.length := by
    simp
  have : out = List.zipWith zap_Any tagNames tags := by
    apply List.ext_getElem?
    intro i
    by_cases hi : i < min tagNames.length tags.length
    · exact hlo i hi
    · rw [List.getElem?_eq_none (by omega), List.getElem?_eq_none (by omega)]
  subst this
  simpa [mapFields] using hout

/-- Closed form of `Info` under a threshold that lets info records through: it
never panics, the logger emits one info record with the paired fields, then
flushes once. -/
theorem Info_eq (log : logger) (msg : String) (tagNames : List String) (tags : List Iface)
    (h : log.log.level ≠ Level.ErrorLevel) :
    Info log msg tagNames tags =
      some (log.after
        [Event.write ⟨Level.InfoLevel, msg, List.zipWith zap_Any tagNames tags⟩,
          Event.sync]) := by
  have he : log.log.level.Enabled Level.InfoLevel = true := by
    cases hl : log.log.level <;> simp_all [Level.Enabled, Level.toInt]
  simp [Info, mapFields_eq, ZapLogger.Info, ZapLogger.emit, ZapLogger.Sync, he,
    logger.after]

/-- Closed form of `Info` under the threshold error: it never panics, no record
is emitted, and the logger flushes once. -/
theorem Info_eq_of_error (log : logger) (msg : String) (tagNames : List String)
    (tags : List Iface) (h : log.log.level = Level.ErrorLevel) :
    Info log msg tagNames tags = some (log.after [Event.sync]) := by
  have he : log.log.level.Enabled Level.InfoLevel = false := by
    simp [h, Level.Enabled, Level.toInt]
  simp [Info, mapFields_eq, ZapLogger.Info, ZapLogger.emit, ZapLogger.Sync, he,
    logger.after]

/-- Closed form of `Error`, for every threshold: the values paired with the names
are the caller's values followed by the field built by `zap.NamedError`. -/
theorem Error_eq (log : logger) (msg : String) (err : GoError) (tagNames : List String)
    (tags : List Iface) :
    Error log msg err tagNames tags =
      some (log.after
        [Event.write ⟨Level.ErrorLevel, msg,
          List.zipWith zap_Any tagNames (tags ++ [zap_NamedError "error" err])⟩,
          Event.sync]) := by
  have he : log.log.level.Enabled Level.ErrorLevel = true := by
    cases hl : log.log.level <;> simp [Level.Enabled, Level.toInt]
  simp [Error, mapFields_eq, ZapLogger.Error, ZapLogger.emit, ZapLogger.Sync, he,
    logger.after]

/-- The logger `init` builds, when the output opens, has the threshold `getLevel`
resolves and the output `getOutput` resolves. -/
theorem init_eq (tbl : Char → Char) (env : Env) (syncErr : GoError) :
    init tbl env none syncErr = some ⟨⟨getLevel tbl env, [getOutput env], [], syncErr⟩⟩ := by
  simp [init, Config.Build]

/-- Pairing stops at the shorter list, so a value appended beyond the last name
changes nothing. -/
theorem zipWith_append_of_le (tagNames : List String) (tags extra : List Iface)
    (h : tagNames.length ≤ tags.length) :
    List.zipWith zap_Any tagNames (tags ++ extra) = List.zipWith zap_Any tagNames tags := by
  induction tagNames generalizing tags with
  | nil => simp
  | cons n ns ih =>
    cases tags with
    | nil => simp at h
    | cons t ts =>
      simp only [List.length_cons, Nat.add_le_add_iff_right] at h
      simp [ih ts h]

/-! ## Lemmas on trimming and lower-casing -/

/-- White space is never an ASCII capital, so ASCII case folding leaves it alone. -/
theorem toLower_of_isSpace (c : Char) (h : isSpace c = true) : c.toLower = c := by
  have hc : ¬ (c.toNat ≥ 65 ∧ c.toNat ≤ 90) := by
    intro hr
    have h1 : c.toNat ≤ 0xFF := by omega
    simp only [isSpace, h1, if_true, Bool.or_eq_true, decide_eq_true_eq] at h
    omega
  simp [Char.toLower, hc]

/-- On a rune whose ASCII case folding is ASCII, `unicode.ToLower` is that folding,
whatever the Unicode table says about other runes. -/
theorem unicodeToLower_eq_toLower (tbl : Char → Char) (c : Char)
    (h : c.toLower.toNat ≤ 0x7F) : unicodeToLower tbl c = c.toLower := by
  by_cases hc : c.toNat ≤ 0x7F
  · simp only [unicodeToLower, hc, if_true, Char.toLower]
  · have hr : ¬ (c.toNat ≥ 65 ∧ c.toNat ≤ 90) := by omega
    have : c.toLower = c := by simp [Char.toLower, hr]
    rw [this] at h
    exact absurd h hc

/-- Trimming a string made of white space, then a core without white space, then
white space, leaves the core. -/
theorem TrimSpace_sandwich (pre core post : List Char)
    (hpre : ∀ c ∈ pre, isSpace c = true) (hpost : ∀ c ∈ post, isSpace c = true)
    (hcore : ∀ c ∈ core, isSpace c = false) :
    TrimSpace ⟨pre ++ core ++ post⟩ = ⟨core⟩ := by
  have h1 : (pre ++ core ++ post).dropWhile isSpace = (core ++ post).dropWhile isSpace := by
    rw [List.append_assoc, List.dropWhile_append_of_pos hpre]
  have h2 : ((core ++ post).dropWhile isSpace).rdropWhile isSpace = core := by
    cases core with
    | nil =>
      have : post.dropWhile isSpace = [] := List.dropWhile_eq_nil_iff.mpr hpost
      simp [this]
    | cons c cs =>
      have hc : ¬ (isSpace c = true) := by simp [hcore c (List.mem_cons_self c cs)]
      rw [List.cons_append, List.dropWhile_cons_of_neg hc, ← List.cons_append]
      have h3 : (c :: cs ++ post).rdropWhile isSpace = (c :: cs).rdropWhile isSpace := by
        unfold List.rdropWhile
        rw [List.reverse_append, List.dropWhile_append_of_pos]
        intro a ha
        exact hpost a (List.mem_reverse.mp ha)
      rw [h3, List.rdropWhile_eq_self_iff]
      intro hl
      simp [hcore _ (List.getLast_mem hl)]
  simp only [TrimSpace, h1, h2]

/-- A value that is white space, a core spelling `name` up to letter case, and
white space again, trims and lower-cases to `name`, provided `name` consists of
ASCII characters that are not white space. -/
theorem ToLower_TrimSpace_sandwich (tbl : Char → Char) (pre core post : List Char)
    (name : String) (hpre : ∀ c ∈ pre, isSpace c = true)
    (hpost : ∀ c ∈ post, isSpace c = true)
    (hname : ∀ x ∈ name.data, isSpace x = false ∧ x.toNat ≤ 0x7F)
    (hcore : core.map Char.toLower = name.data) :
    ToLower tbl (TrimSpace ⟨pre ++ core ++ post⟩) = name := by
  have hmem : ∀ c ∈ core, c.toLower ∈ name.data := by
    intro c hc
    rw [← hcore]
    exact List.mem_map_of_mem _ hc
  have hns : ∀ c ∈ core, isSpace c = false := by
    intro c hc
    by_contra hsp
    have hsp1 : isSpace c = true := by simpa using hsp
    have := (hname _ (hmem c hc)).1
    rw [toLower_of_isSpace c hsp1, hsp1] at this
    exact absurd this (by simp)
  rw [TrimSpace_sandwich pre core post hpre hpost hns]
  have hmap : core.map (unicodeToLower tbl) = core.map Char.toLower := by
    apply List.map_congr_left
    intro c hc
    exact unicodeToLower_eq_toLower tbl c (hname _ (hmem c hc)).2
  simp only [ToLower, hmap, hcore]

/-- A value with a character that is not white space does not trim to the empty
string. -/
theorem TrimSpace_ne_empty (v : String) (c : Char) (hc : c ∈ v.data)
    (hns : isSpace c = false) : TrimSpace v ≠ "" := by
  intro h
  have hd : (v.data.dropWhile isSpace).rdropWhile isSpace = [] := by
    have := congrArg String.data h
    simpa [TrimSpace] using this
  rw [List.rdropWhile_eq_nil_iff] at hd
  have hne : v.data.dropWhile isSpace ≠ [] := by
    intro hnil
    have := List.dropWhile_eq_nil_iff.mp hnil c hc
    rw [hns] at this
    exact absurd this (by simp)
  have h1 := List.head_dropWhile_not isSpace v.data hne
  have h2 := hd _ (List.head_mem hne)
  rw [h2] at h1
  exact absurd h1 (by simp)

/-- A value made of white space only trims to the empty string. -/
theorem TrimSpace_of_all_space (v : String) (h : ∀ c ∈ v.data, isSpace c = true) :
    TrimSpace v = "" := by
  have := TrimSpace_sandwich v.data [] [] h (by simp) (by simp)
  simpa using this

/-! ## The claims -/

/-- C1 (as amended): for every logger whose threshold is debug or info, every
message, tag-name list and value list, `Info` emits one info record whose fields
number exactly the minimum of the two lengths and whose `i`-th field, for every
`i` below both lengths, has key `tagNames[i]` and value `tags[i]`, and the call
does not fail, whatever the lengths; under the threshold error `Info` emits no
record and only flushes. -/
theorem Info_pairs_tags (log : logger) (msg : String) (tagNames : List String)
    (tags : List Iface) :
    (log.log.level ≠ Level.ErrorLevel →
      ∃ fields : List Field,
        Info log msg tagNames tags =
          some (log.after [Event.write ⟨Level.InfoLevel, msg, fields⟩, Event.sync]) ∧
        fields.length = min tagNames.length tags.length ∧
        ∀ (i : Nat) (hn : i < tagNames.length) (hv : i < tags.length),
          fields[i]? = some ⟨tagNames[i], tags[i]⟩) ∧
    (log.log.level = Level.ErrorLevel →
      Info log msg tagNames tags = some (log.after [Event.sync])) := by
  refine ⟨fun h => ⟨List.zipWith zap_Any tagNames tags, Info_eq log msg tagNames tags h,
    by simp, ?_⟩, Info_eq_of_error log msg tagNames tags⟩
  intro i hn hv
  simp [List.getElem?_zipWith, List.getElem?_eq_getElem hn, List.getElem?_eq_getElem hv,
    zap_Any]

/-- The two examples of C1 under the default threshold info: names `a, b` with
values `1, 2, 3` give exactly `a=1, b=2`; names `a, b, c` with the value `1` give
exactly `a=1`; and the first example under the threshold error gives a flush
only. -/
theorem Info_pairs_tags_witness :
    (∃ fields : List Field,
      Info (loggerAt Level.InfoLevel) "hello" ["a", "b"]
          [Iface.int 1, Iface.int 2, Iface.int 3] =
        some ((loggerAt Level.InfoLevel).after
          [Event.write ⟨Level.InfoLevel, "hello", fields⟩, Event.sync]) ∧
      fields.length = 2 ∧
      fields[0]? = some ⟨"a", Iface.int 1⟩ ∧ fields[1]? = some ⟨"b", Iface.int 2⟩) ∧
    (∃ fields : List Field,
      Info (loggerAt Level.DebugLevel) "hello" ["a", "b", "c"] [Iface.int 1] =
        some ((loggerAt Level.DebugLevel).after
          [Event.write ⟨Level.InfoLevel, "hello", fields⟩, Event.sync]) ∧
      fields.length = 1 ∧ fields[0]? = some ⟨"a", Iface.int 1⟩) ∧
    Info (loggerAt Level.ErrorLevel) "hello" ["a", "b"]
        [Iface.int 1, Iface.int 2, Iface.int 3] =
      some ((loggerAt Level.ErrorLevel).after [Event.sync]) := by
  refine ⟨?_, ?_, ?_⟩
  · obtain ⟨fields, h, hl, hi⟩ :=
      (Info_pairs_tags (loggerAt Level.InfoLevel) "hello" ["a", "b"]
        [Iface.int 1, Iface.int 2, Iface.int 3]).1 (by decide)
    exact ⟨fields, h, hl, hi 0 (by decide) (by decide), hi 1 (by decide) (by decide)⟩
  · obtain ⟨fields, h, hl, hi⟩ :=
      (Info_pairs_tags (loggerAt Level.DebugLevel) "hello" ["a", "b", "c"]
        [Iface.int 1]).1 (by decide)
    exact ⟨fields, h, hl, hi 0 (by decide) (by decide)⟩
  · exact (Info_pairs_tags (loggerAt Level.ErrorLevel) "hello" ["a", "b"]
      [Iface.int 1, Iface.int 2, Iface.int 3]).2 rfl

/-- C1 as stated fails: with `LOG_LEVEL=error`, `init` builds a logger with the
threshold error, and on it `Info` with message `hello`, names `a, b` and values
`1, 2, 3` emits no record at all; the logger only flushes. -/
theorem Info_pairs_tags_counterexample :
    init id (Env.single "LOG_LEVEL" "error") none none = some (loggerAt Level.ErrorLevel) ∧
    Info (loggerAt Level.ErrorLevel) "hello" ["a", "b"]
        [Iface.int 1, Iface.int 2, Iface.int 3] =
      some ⟨⟨Level.ErrorLevel, ["stdout"], [Event.sync], none⟩⟩ ∧
    ¬ ∃ fields : List Field,
      Info (loggerAt Level.ErrorLevel) "hello" ["a", "b"]
          [Iface.int 1, Iface.int 2, Iface.int 3] =
        some ⟨⟨Level.ErrorLevel, ["stdout"],
          [Event.write ⟨Level.InfoLevel, "hello", fields⟩, Event.sync], none⟩⟩ := by
  refine ⟨rfl, rfl, ?_⟩
  rintro ⟨fields, h⟩
  have h2 : Info (loggerAt Level.ErrorLevel) "hello" ["a", "b"]
      [Iface.int 1, Iface.int 2, Iface.int 3] =
      some ⟨⟨Level.ErrorLevel, ["stdout"], [Event.sync], none⟩⟩ := rfl
  rw [h2] at h
  simp at h

/-- C2 (what the code does where the claim fails): with an empty tag-name list
`Error` writes a record without any field, so no tag named `error` is there; and
with one spare name `a` the error travels under the key `a`, wrapped in the field
that `zap.NamedError` built, not under the key `error`. -/
theorem Error_loses_error_tag :
    Error (loggerAt Level.InfoLevel) "failed" (some "boom") [] [] =
      some ⟨⟨Level.InfoLevel, ["stdout"],
        [Event.write ⟨Level.ErrorLevel, "failed", []⟩, Event.sync], none⟩⟩ ∧
    Error (loggerAt Level.InfoLevel) "failed" (some "boom") ["a"] [] =
      some ⟨⟨Level.InfoLevel, ["stdout"],
        [Event.write ⟨Level.ErrorLevel, "failed",
          [⟨"a", Iface.errorField "error" "boom"⟩]⟩, Event.sync], none⟩⟩ := by
  constructor <;> rfl

/-- C3: for every logger (whatever its threshold), message, error, tag-name list
and value list, `Error` emits one error record with exactly
`min (len tagNames) (len tags + 1)` fields; when the names do not outnumber the
caller's values the appended error entry is dropped, the fields being exactly the
pairing of the names with the caller's values, which is what `Info` emits for
them under a threshold that lets info through; and with an empty tag-name list
the record has no fields. -/
theorem Error_field_count (log : logger) (msg : String) (err : GoError)
    (tagNames : List String) (tags : List Iface) :
    ∃ fields : List Field,
      Error log msg err tagNames tags =
        some (log.after [Event.write ⟨Level.ErrorLevel, msg, fields⟩, Event.sync]) ∧
      fields.length = min tagNames.length (tags.length + 1) ∧
      (tagNames.length ≤ tags.length →
        fields = List.zipWith zap_Any tagNames tags ∧
        (log.log.level ≠ Level.ErrorLevel →
          Info log msg tagNames tags =
            some (log.after [Event.write ⟨Level.InfoLevel, msg, fields⟩, Event.sync]))) ∧
      (tagNames = [] → fields = []) := by
  refine ⟨List.zipWith zap_Any tagNames (tags ++ [zap_NamedError "error" err]),
    Error_eq log msg err tagNames tags, by simp, ?_, ?_⟩
  · intro h
    rw [zipWith_append_of_le tagNames tags _ h]
    exact ⟨rfl, Info_eq log msg tagNames tags⟩
  · intro h
    simp [h]

/-- The example of C3: `Error` with message `failed`, an error, no names and no
values emits an error record without fields, also under the threshold error;
with names `a, b` and values `1, 2` the error entry is dropped as well. -/
theorem Error_field_count_witness :
    (∃ fields : List Field,
      Error (loggerAt Level.ErrorLevel) "failed" (some "boom") [] [] =
        some ((loggerAt Level.ErrorLevel).after
          [Event.write ⟨Level.ErrorLevel, "failed", fields⟩, Event.sync]) ∧
      fields = []) ∧
    (∃ fields : List Field,
      Error (loggerAt Level.InfoLevel) "failed" (some "boom") ["a", "b"]
          [Iface.int 1, Iface.int 2] =
        some ((loggerAt Level.InfoLevel).after
          [Event.write ⟨Level.ErrorLevel, "failed", fields⟩, Event.sync]) ∧
      fields.length = 2 ∧
      fields = [⟨"a", Iface.int 1⟩, ⟨"b", Iface.int 2⟩] ∧
      Info (loggerAt Level.InfoLevel) "failed" ["a", "b"] [Iface.int 1, Iface.int 2] =
        some ((loggerAt Level.InfoLevel).after
          [Event.write ⟨Level.InfoLevel, "failed", fields⟩, Event.sync])) := by
  constructor
  · obtain ⟨fields, h, _, _, hnil⟩ :=
      Error_field_count (loggerAt Level.ErrorLevel) "failed" (some "boom") [] []
    exact ⟨fields, h, hnil rfl⟩
  · obtain ⟨fields, h, hl, hle, _⟩ :=
      Error_field_count (loggerAt Level.InfoLevel) "failed" (some "boom") ["a", "b"]
        [Iface.int 1, Iface.int 2]
    obtain ⟨hz, hinfo⟩ := hle (by decide)
    exact ⟨fields, h, hl, hz, hinfo (by decide)⟩

/-- C4: when `LOG_LEVEL` is unset, or set to the empty string, or set to a value
whose trimmed, lower-cased form is none of `debug`, `info`, `error`, `getLevel`
resolves the threshold to info. -/
theorem getLevel_default (tbl : Char → Char) (env : Env)
    (h : env envLogLevel = none ∨ env envLogLevel = some "" ∨
      ∃ v, env envLogLevel = some v ∧ ToLower tbl (TrimSpace v) ≠ "debug" ∧
        ToLower tbl (TrimSpace v) ≠ "info" ∧ ToLower tbl (TrimSpace v) ≠ "error") :
    getLevel tbl env = Level.InfoLevel := by
  have hempty : ToLower tbl (TrimSpace "") = "" := by rfl
  rcases h with h | h | ⟨v, hv, h1, h2, h3⟩
  · have hg : Getenv env envLogLevel = "" := by simp [Getenv, h]
    simp only [getLevel, hg, hempty]
    decide
  · have hg : Getenv env envLogLevel = "" := by simp [Getenv, h]
    simp only [getLevel, hg, hempty]
    decide
  · have hg : Getenv env envLogLevel = v := by simp [Getenv, hv]
    simp [getLevel, hg, h1, h2, h3]

/-- C4 at concrete inputs: no variable set, the empty value, and the
unrecognized value ` Warn `. -/
theorem getLevel_default_witness :
    getLevel id Env.empty = Level.InfoLevel ∧
    getLevel id (Env.single "LOG_LEVEL" "") = Level.InfoLevel ∧
    getLevel id (Env.single "LOG_LEVEL" " Warn ") = Level.InfoLevel :=
  ⟨getLevel_default id Env.empty (Or.inl rfl),
   getLevel_default id (Env.single "LOG_LEVEL" "") (Or.inr (Or.inl rfl)),
   getLevel_default id (Env.single "LOG_LEVEL" " Warn ")
     (Or.inr (Or.inr ⟨" Warn ", rfl, by decide, by decide, by decide⟩))⟩

/-- C5: when `LOG_LEVEL` is set to white space, then a core that spells `debug`,
`info` or `error` up to letter case, then white space, `getLevel` resolves the
threshold to the level so named, whatever the Unicode case table. -/
theorem getLevel_recognized (tbl : Char → Char) (env : Env) (pre core post : List Char)
    (hset : env envLogLevel = some ⟨pre ++ core ++ post⟩)
    (hpre : ∀ c ∈ pre, isSpace c = true) (hpost : ∀ c ∈ post, isSpace c = true) :
    (core.map Char.toLower = "debug".data → getLevel tbl env = Level.DebugLevel) ∧
    (core.map Char.toLower = "info".data → getLevel tbl env = Level.InfoLevel) ∧
    (core.map Char.toLower = "error".data → getLevel tbl env = Level.ErrorLevel) := by
  have hg : Getenv env envLogLevel = ⟨pre ++ core ++ post⟩ := by simp [Getenv, hset]
  refine ⟨?_, ?_, ?_⟩
  · intro hcore
    have := ToLower_TrimSpace_sandwich tbl pre core post "debug" hpre hpost (by decide) hcore
    simp only [getLevel, hg, this]
    decide
  · intro hcore
    have := ToLower_TrimSpace_sandwich tbl pre core post "info" hpre hpost (by decide) hcore
    simp only [getLevel, hg, this]
    decide
  · intro hcore
    have := ToLower_TrimSpace_sandwich tbl pre core post "error" hpre hpost (by decide) hcore
    simp only [getLevel, hg, this]
    decide

/-- C5 at concrete inputs: `DEBUG`, ` debug `, `debug`, a tab-padded `Info` and
`ERROR` followed by a line break. -/
theorem getLevel_recognized_witness :
    getLevel id (Env.single "LOG_LEVEL" "DEBUG") = Level.DebugLevel ∧
    getLevel id (Env.single "LOG_LEVEL" " debug ") = Level.DebugLevel ∧
    getLevel id (Env.single "LOG_LEVEL" "debug") = Level.DebugLevel ∧
    getLevel id (Env.single "LOG_LEVEL" "\tInfo") = Level.InfoLevel ∧
    getLevel id (Env.single "LOG_LEVEL" "ERROR\n") = Level.ErrorLevel :=
  ⟨(getLevel_recognized id (Env.single "LOG_LEVEL" "DEBUG") [] "DEBUG".data [] rfl
      (by decide) (by decide)).1 (by decide),
   (getLevel_recognized id (Env.single "LOG_LEVEL" " debug ") [' '] "debug".data [' '] rfl
      (by decide) (by decide)).1 (by decide),
   (getLevel_recognized id (Env.single "LOG_LEVEL" "debug") [] "debug".data [] rfl
      (by decide) (by decide)).1 (by decide),
   (getLevel_recognized id (Env.single "LOG_LEVEL" "\tInfo") ['\t'] "Info".data [] rfl
      (by decide) (by decide)).2.1 (by decide),
   (getLevel_recognized id (Env.single "LOG_LEVEL" "ERROR\n") [] "ERROR".data ['\n'] rfl
      (by decide) (by decide)).2.2 (by decide)⟩

/-- C6: when `LOG_OUTPUT` is unset or holds white space only (the empty string
included), `getOutput` is the literal `stdout`; for every other value it is the
value with the surrounding white space removed, and that is not empty. -/
theorem getOutput_resolves (env : Env) :
    ((env envLogOutput = none ∨
        ∃ v, env envLogOutput = some v ∧ ∀ c ∈ v.data, isSpace c = true) →
      getOutput env = "stdout") ∧
    (∀ v, env envLogOutput = some v → (∃ c ∈ v.data, isSpace c = false) →
      getOutput env = TrimSpace v ∧ getOutput env ≠ "") := by
  constructor
  · rintro (h | ⟨v, hv, hall⟩)
    · have hg : Getenv env envLogOutput = "" := by simp [Getenv, h]
      have ht : TrimSpace "" = "" := by rfl
      simp [getOutput, hg, ht]
    · have hg : Getenv env envLogOutput = v := by simp [Getenv, hv]
      simp [getOutput, hg, TrimSpace_of_all_space v hall]
  · rintro v hv ⟨c, hc, hns⟩
    have hg : Getenv env envLogOutput = v := by simp [Getenv, hv]
    have hne := TrimSpace_ne_empty v c hc hns
    simp [getOutput, hg, hne]

/-- C6 at concrete inputs: no variable set, the empty value, a blank value, and a
path with white space around it. -/
theorem getOutput_resolves_witness :
    getOutput Env.empty = "stdout" ∧
    getOutput (Env.single "LOG_OUTPUT" "") = "stdout" ∧
    getOutput (Env.single "LOG_OUTPUT" " \t ") = "stdout" ∧
    getOutput (Env.single "LOG_OUTPUT" " /var/log/app.log\n") = "/var/log/app.log" :=
  ⟨(getOutput_resolves Env.empty).1 (Or.inl rfl),
   (getOutput_resolves (Env.single "LOG_OUTPUT" "")).1
     (Or.inr ⟨"", rfl, by decide⟩),
   (getOutput_resolves (Env.single "LOG_OUTPUT" " \t ")).1
     (Or.inr ⟨" \t ", rfl, by decide⟩),
   ((getOutput_resolves (Env.single "LOG_OUTPUT" " /var/log/app.log\n")).2
     " /var/log/app.log\n" rfl ⟨'/', by decide, by decide⟩).1.trans (by decide)⟩

/-- C7 (as amended): for every request, response, error (nil or not), start time
and duration, `LogRoundTrip` returns the nil error; under a threshold of debug or
info it emits exactly one info record with message `elastic` and the five fields
`request`, `response`, `error`, `time`, `duration`, in that order, each carrying
its argument; under the threshold error it emits no record and only flushes. -/
theorem LogRoundTrip_emits (l log : logger) (request : Option HttpRequest)
    (response : Option HttpResponse) (err : GoError) (time duration : Int) :
    (log.log.level ≠ Level.ErrorLevel →
      l.LogRoundTrip log request response err time duration =
        some (log.after
          [Event.write ⟨Level.InfoLevel, "elastic",
            [⟨"request", Iface.request request⟩, ⟨"response", Iface.response response⟩,
             ⟨"error", err.box⟩, ⟨"time", Iface.time time⟩,
             ⟨"duration", Iface.duration duration⟩]⟩,
           Event.sync], none)) ∧
    (log.log.level = Level.ErrorLevel →
      l.LogRoundTrip log request response err time duration =
        some (log.after [Event.sync], none)) := by
  constructor
  · intro h
    simp [logger.LogRoundTrip, Info_eq _ _ _ _ h, zap_Any]
  · intro h
    simp [logger.LogRoundTrip, Info_eq_of_error _ _ _ _ h]

/-- C7 at concrete inputs: a failed round trip (nil response, error `timeout`)
logged under the threshold info, and the same call under the threshold error. -/
theorem LogRoundTrip_emits_witness :
    (loggerAt Level.InfoLevel).LogRoundTrip (loggerAt Level.InfoLevel)
        (some ⟨"GET", "/books"⟩) none (some "timeout") 100 7 =
      some ((loggerAt Level.InfoLevel).after
        [Event.write ⟨Level.InfoLevel, "elastic",
          [⟨"request", Iface.request (some ⟨"GET", "/books"⟩)⟩,
           ⟨"response", Iface.response none⟩, ⟨"error", Iface.err "timeout"⟩,
           ⟨"time", Iface.time 100⟩, ⟨"duration", Iface.duration 7⟩]⟩,
         Event.sync], none) ∧
    (loggerAt Level.InfoLevel).LogRoundTrip (loggerAt Level.ErrorLevel)
        (some ⟨"GET", "/books"⟩) none (some "timeout") 100 7 =
      some ((loggerAt Level.ErrorLevel).after [Event.sync], none) :=
  ⟨(LogRoundTrip_emits (loggerAt Level.InfoLevel) (loggerAt Level.InfoLevel)
      (some ⟨"GET", "/books"⟩) none (some "timeout") 100 7).1 (by decide),
   (LogRoundTrip_emits (loggerAt Level.InfoLevel) (loggerAt Level.ErrorLevel)
      (some ⟨"GET", "/books"⟩) none (some "timeout") 100 7).2 rfl⟩

/-- C7 as stated fails: with `LOG_LEVEL=ERROR`, `init` builds a logger with the
threshold error, and on it `LogRoundTrip` returns nil but emits no record; the
logger only flushes. -/
theorem LogRoundTrip_emits_counterexample :
    init id (Env.single "LOG_LEVEL" "ERROR") none none = some (loggerAt Level.ErrorLevel) ∧
    (loggerAt Level.ErrorLevel).LogRoundTrip (loggerAt Level.ErrorLevel)
        (some ⟨"GET", "/books"⟩) (some ⟨200⟩) none 100 7 =
      some (⟨⟨Level.ErrorLevel, ["stdout"], [Event.sync], none⟩⟩, none) ∧
    ¬ ∃ e : Entry,
      (loggerAt Level.ErrorLevel).LogRoundTrip (loggerAt Level.ErrorLevel)
          (some ⟨"GET", "/books"⟩) (some ⟨200⟩) none 100 7 =
        some (⟨⟨Level.ErrorLevel, ["stdout"], [Event.write e, Event.sync], none⟩⟩,
          none) := by
  refine ⟨rfl, rfl, ?_⟩
  rintro ⟨e, h⟩
  have h2 : (loggerAt Level.ErrorLevel).LogRoundTrip (loggerAt Level.ErrorLevel)
      (some ⟨"GET", "/books"⟩) (some ⟨200⟩) none 100 7 =
      some (⟨⟨Level.ErrorLevel, ["stdout"], [Event.sync], none⟩⟩, none) := rfl
  rw [h2] at h
  simp at h

/-- C8: `RequestBodyEnabled` and `ResponseBodyEnabled` are true for every logger
value. -/
theorem body_enabled_always (l : logger) :
    l.RequestBodyEnabled = true ∧ l.ResponseBodyEnabled = true :=
  ⟨rfl, rfl⟩

/-- C9 (as amended): for every format and argument list, `Printf` and `Print` do
exactly what `Info` does with an empty tag-name list and no values, the message
being the format itself when no values are given, the formatted text otherwise,
and for `Print` the default rendering of the values; under a threshold of debug
or info that is one info record with zero fields, under the threshold error no
record and a flush only. -/
theorem Print_Printf_delegate (l log : logger) (sprintf : String → List Iface → String)
    (format : String) (v : List Iface) :
    l.Printf sprintf log format v =
        Info log (if v.length = 0 then format else sprintf format v) [] [] ∧
    l.Print sprintf log v = Info log (sprintf "%v" [Iface.slice v]) [] [] ∧
    (log.log.level ≠ Level.ErrorLevel →
      l.Printf sprintf log format v =
          some (log.after
            [Event.write ⟨Level.InfoLevel,
              if v.length = 0 then format else sprintf format v, []⟩, Event.sync]) ∧
      l.Print sprintf log v =
          some (log.after
            [Event.write ⟨Level.InfoLevel, sprintf "%v" [Iface.slice v], []⟩,
              Event.sync])) ∧
    (log.log.level = Level.ErrorLevel →
      l.Printf sprintf log format v = some (log.after [Event.sync]) ∧
      l.Print sprintf log v = some (log.after [Event.sync])) := by
  have hf : l.Printf sprintf log format v =
      Info log (if v.length = 0 then format else sprintf format v) [] [] := by
    unfold logger.Printf
    split <;> rfl
  have hp : l.Print sprintf log v = Info log (sprintf "%v" [Iface.slice v]) [] [] := rfl
  refine ⟨hf, hp, ?_, ?_⟩
  · intro h
    rw [hf, hp, Info_eq _ _ _ _ h, Info_eq _ _ _ _ h]
    exact ⟨rfl, rfl⟩
  · intro h
    rw [hf, hp, Info_eq_of_error _ _ _ _ h, Info_eq_of_error _ _ _ _ h]
    exact ⟨rfl, rfl⟩

/-- C9 at concrete inputs, with a formatter that returns the text `rendered`:
`Printf` with one value and `Print` with two under the threshold debug, and both
under the threshold error. -/
theorem Print_Printf_delegate_witness :
    ((loggerAt Level.DebugLevel).Printf (fun _ _ => "rendered") (loggerAt Level.DebugLevel)
        "n=%d" [Iface.int 1] =
      some ((loggerAt Level.DebugLevel).after
        [Event.write ⟨Level.InfoLevel, "rendered", []⟩, Event.sync]) ∧
     (loggerAt Level.DebugLevel).Print (fun _ _ => "rendered") (loggerAt Level.DebugLevel)
        [Iface.int 1, Iface.int 2] =
      some ((loggerAt Level.DebugLevel).after
        [Event.write ⟨Level.InfoLevel, "rendered", []⟩, Event.sync])) ∧
    ((loggerAt Level.DebugLevel).Printf (fun _ _ => "rendered") (loggerAt Level.ErrorLevel)
        "n=%d" [Iface.int 1] =
      some ((loggerAt Level.ErrorLevel).after [Event.sync]) ∧
     (loggerAt Level.DebugLevel).Print (fun _ _ => "rendered") (loggerAt Level.ErrorLevel)
        [Iface.int 1] =
      some ((loggerAt Level.ErrorLevel).after [Event.sync])) :=
  ⟨⟨((Print_Printf_delegate (loggerAt Level.DebugLevel) (loggerAt Level.DebugLevel)
        (fun _ _ => "rendered") "n=%d" [Iface.int 1]).2.2.1 (by decide)).1,
    ((Print_Printf_delegate (loggerAt Level.DebugLevel) (loggerAt Level.DebugLevel)
        (fun _ _ => "rendered") "n=%d" [Iface.int 1, Iface.int 2]).2.2.1 (by decide)).2⟩,
   ⟨((Print_Printf_delegate (loggerAt Level.DebugLevel) (loggerAt Level.ErrorLevel)
        (fun _ _ => "rendered") "n=%d" [Iface.int 1]).2.2.2 rfl).1,
    ((Print_Printf_delegate (loggerAt Level.DebugLevel) (loggerAt Level.ErrorLevel)
        (fun _ _ => "rendered") "n=%d" [Iface.int 1]).2.2.2 rfl).2⟩⟩

/-- C9 as stated fails: with `LOG_LEVEL` set to ` error `, `init` builds a logger
with the threshold error, and on it neither `Printf` nor `Print` emits a record;
the logger only flushes. -/
theorem Print_Printf_delegate_counterexample :
    init id (Env.single "LOG_LEVEL" " error ") none none =
      some (loggerAt Level.ErrorLevel) ∧
    (loggerAt Level.ErrorLevel).Printf (fun _ _ => "rendered") (loggerAt Level.ErrorLevel)
        "ready" [] =
      some ⟨⟨Level.ErrorLevel, ["stdout"], [Event.sync], none⟩⟩ ∧
    (loggerAt Level.ErrorLevel).Print (fun _ _ => "rendered") (loggerAt Level.ErrorLevel)
        [Iface.str "ready"] =
      some ⟨⟨Level.ErrorLevel, ["stdout"], [Event.sync], none⟩⟩ ∧
    ¬ ∃ e : Entry,
      (loggerAt Level.ErrorLevel).Printf (fun _ _ => "rendered") (loggerAt Level.ErrorLevel)
          "ready" [] =
        some ⟨⟨Level.ErrorLevel, ["stdout"], [Event.write e, Event.sync], none⟩⟩ := by
  refine ⟨rfl, rfl, rfl, ?_⟩
  rintro ⟨e, h⟩
  have h2 : (loggerAt Level.ErrorLevel).Printf (fun _ _ => "rendered")
      (loggerAt Level.ErrorLevel) "ready" [] =
      some ⟨⟨Level.ErrorLevel, ["stdout"], [Event.sync], none⟩⟩ := rfl
  rw [h2] at h
  simp at h

/-- C10 (as amended): every call of `Error` makes the logger emit exactly one
record and then flush exactly once; every call of `Info` makes it flush exactly
once, after exactly one record under a threshold of debug or info and after no
record under the threshold error; and each call returns normally with the same
result whether that flush reports success or a failure, which `Sync` does report
and the caller discards. -/
theorem Info_Error_write_then_sync (log : logger) (msg : String)
    (err : GoError) (tagNames : List String) (tags : List Iface) :
    (∃ e : Entry, e.level = Level.ErrorLevel ∧
      Error log msg err tagNames tags = some (log.after [Event.write e, Event.sync])) ∧
    (log.log.level ≠ Level.ErrorLevel →
      ∃ e : Entry, e.level = Level.InfoLevel ∧
        Info log msg tagNames tags = some (log.after [Event.write e, Event.sync])) ∧
    (log.log.level = Level.ErrorLevel →
      Info log msg tagNames tags = some (log.after [Event.sync])) ∧
    (log.log.Sync).2 = log.log.syncErr := by
  refine ⟨⟨_, rfl, Error_eq log msg err tagNames tags⟩, ?_, ?_, rfl⟩
  · intro h
    exact ⟨_, rfl, Info_eq log msg tagNames tags h⟩
  · exact Info_eq_of_error log msg tagNames tags

/-- C10 at concrete inputs, on loggers whose flush fails with `disk full`: `Info`
under the threshold info writes once and flushes once, `Info` under the threshold
error only flushes, and both return normally. -/
theorem Info_Error_write_then_sync_witness :
    (∃ e : Entry, e.level = Level.InfoLevel ∧
      Info ⟨⟨Level.InfoLevel, ["app.log"], [], some "disk full"⟩⟩ "saved" ["id"]
          [Iface.int 7] =
        some ⟨⟨Level.InfoLevel, ["app.log"], [Event.write e, Event.sync],
          some "disk full"⟩⟩) ∧
    Info ⟨⟨Level.ErrorLevel, ["app.log"], [], some "disk full"⟩⟩ "saved" ["id"]
        [Iface.int 7] =
      some ⟨⟨Level.ErrorLevel, ["app.log"], [Event.sync], some "disk full"⟩⟩ :=
  ⟨(Info_Error_write_then_sync ⟨⟨Level.InfoLevel, ["app.log"], [], some "disk full"⟩⟩
      "saved" none ["id"] [Iface.int 7]).2.1 (by decide),
   (Info_Error_write_then_sync ⟨⟨Level.ErrorLevel, ["app.log"], [], some "disk full"⟩⟩
      "saved" none ["id"] [Iface.int 7]).2.2.1 rfl⟩

/-- C10 as stated fails: with `LOG_LEVEL=Error` and `LOG_OUTPUT` unset, `init`
builds a logger with the threshold error, and on it a call of `Info` performs no
record write, only the flush. -/
theorem Info_Error_write_then_sync_counterexample :
    init id (Env.single "LOG_LEVEL" "Error") none (some "disk full") =
      some ⟨⟨Level.ErrorLevel, ["stdout"], [], some "disk full"⟩⟩ ∧
    Info ⟨⟨Level.ErrorLevel, ["stdout"], [], some "disk full"⟩⟩ "saved" [] [] =
      some ⟨⟨Level.ErrorLevel, ["stdout"], [Event.sync], some "disk full"⟩⟩ ∧
    ¬ ∃ e : Entry,
      Info ⟨⟨Level.ErrorLevel, ["stdout"], [], some "disk full"⟩⟩ "saved" [] [] =
        some ⟨⟨Level.ErrorLevel, ["stdout"], [Event.write e, Event.sync],
          some "disk full"⟩⟩ := by
  refine ⟨rfl, rfl, ?_⟩
  rintro ⟨e, h⟩
  have h2 : Info ⟨⟨Level.ErrorLevel, ["stdout"], [], some "disk full"⟩⟩ "saved" [] [] =
      some ⟨⟨Level.ErrorLevel, ["stdout"], [Event.sync], some "disk full"⟩⟩ := rfl
  rw [h2] at h
  simp at h

end Bookstore
